import Mathlib

/-!
Shallow embedding of the bridge endpoint of the diagnostics service
(`api/bridge_handler.go`, function `BridgeHandler.Bridge`), together with the
small parts of its collaborators that the handler touches.

The handler multiplexes operator requests onto one duplex HTTP/2 stream:

* a per-node writer goroutine dequeues requests from `nodeSession.RequestCh`,
  marshals them, records them in the mutex-protected `requestMap`, writes them
  to the response body, and on write failure retries up to 15 times
  (lines 76-124 of the source);
* the handler's main loop decodes `erigon_node.Response` objects from the
  request body and routes each to the waiting request's `Responses` channel
  (lines 127-154 of the source).

The embedding is an explicit state (`BridgeState`) plus one function per loop
iteration (`writerIter`, `bridgeReadIter`), transcribed branch by branch from
the source.  Go channels become bounded FIFO lists, the Go map becomes an
association list, and the blocking of a channel send appears as a `blocked`
result.  Interleaving of the writer and reader goroutines (serialised in the
source by `requestMutex`) is a schedule: a list of `Sched` choices.
-/

/-! ### Association-list helpers (the Go `map[string]*NodeRequest`) -/

def findEntry {α : Type} : List (String × α) → String → Option α
  | [], _ => none
  | (k, v) :: t, id => if k == id then some v else findEntry t id

def eraseKey {α : Type} (id : String) (l : List (String × α)) : List (String × α) :=
  l.filter (fun p => !(p.1 == id))

def insertKey {α : Type} (id : String) (v : α) (l : List (String × α)) :
    List (String × α) :=
  (id, v) :: eraseKey id l

/-! ### Data model

`erigon_node.Response`, `erigon_node.Error` and `erigon_node.NodeRequest` live
in `internal/erigon_node`, which is not among the sources; the fields below are
the ones the handler uses, with shapes taken from the spec's wire format. -/

/-- Modelled from the spec: `erigon_node.Error` (package `internal/erigon_node`
is missing from the sources); the spec's response object carries
`error: {"message": <string>}`. -/
structure ErigonError where
  message : String
deriving DecidableEq

/-- Modelled from the spec: `erigon_node.Response` (package missing from the
sources); the spec's response object is
`{"id", "chunk": <any|absent>, "error": <absent|object>, "last": <bool>}`.
The opaque chunk payload is modelled as an optional string. -/
structure Response where
  id : String
  chunk : Option String
  error : Option ErigonError
  last : Bool
deriving DecidableEq

/-- Outcome of `json.Marshal(rpcRequest)` (source line 82). -/
inductive MarshalResult where
  | ok (bytes : String)
  | error (msg : String)
deriving DecidableEq

/-- Modelled from the spec: `erigon_node.NodeRequest` (package missing from the
sources).  The handler uses `request.Request.Id`, `request.Retries` and
`request.Responses`; the opaque method+params payload only matters through the
outcome of `json.Marshal`, so it is modelled as that outcome (`ok bytes` or
`error message`).  The response sink channel is held separately in
`BridgeState.sinks`, keyed by the request id. -/
structure NodeRequest where
  id : String
  marshalResult : MarshalResult
  retries : Nat
deriving DecidableEq

/-- A response sink: the `Responses` channel of one request.  `cap` is the
channel capacity, `buf` the chunks sent but not yet consumed by the operator
(the claims below concern operators that do not read). -/
structure Sink where
  cap : Nat
  buf : List Response
deriving DecidableEq

/-- The connection-scoped state the handler mutates: the node session's request
channel (`queue` with capacity `queueCap`), the mutex-protected `requestMap`,
the response sinks of all requests of the connection, the undecoded remainder
of the companion's request body (`input`, with `none` standing for a malformed
JSON object), plus two ghost observers: `events`, the ordered log of every send
to a response sink, and `reenqueues`, the number of successful failed-write
re-enqueues. -/
structure BridgeState where
  queue : List NodeRequest
  queueCap : Nat
  requestMap : List (String × NodeRequest)
  sinks : List (String × Sink)
  events : List (String × Response)
  input : List (Option Response)
  reenqueues : Nat
deriving DecidableEq

/-- Send a response on the sink of request `sid` (`request.Responses <- r`).
`none` when the channel is full (or absent): the sending goroutine blocks. -/
def sendToSink (st : BridgeState) (sid : String) (r : Response) :
    Option BridgeState :=
  match findEntry st.sinks sid with
  | none => none
  | some s =>
    if s.buf.length < s.cap then
      some { st with
              sinks := insertKey sid ⟨s.cap, s.buf ++ [r]⟩ st.sinks,
              events := st.events ++ [(sid, r)] }
    else none

/-- The chunks the code sends when `json.Marshal` fails (source lines 85-90). -/
def marshalErrorResp (m : String) : Response :=
  ⟨"", none, some ⟨"Failed to marshal request: " ++ m⟩, true⟩

/-- The chunk the code sends after retry exhaustion (source lines 112-117). -/
def sendFailedResp (m : String) : Response :=
  ⟨"", none, some ⟨"Failed to write metrics request: " ++ m⟩, true⟩

/-! ### The per-node writer goroutine (source lines 76-124) -/

inductive WriterResult where
  /-- The loop body completed and the loop continues with the new state. -/
  | next (st : BridgeState)
  /-- `for request := range nodeSession.RequestCh` found the channel empty:
  the goroutine waits for an enqueue (or a close, which nothing performs). -/
  | waiting
  /-- The goroutine is suspended sending an error chunk to a full sink. -/
  | blocked
deriving DecidableEq

/-- Body of the writer loop for the request just dequeued; `st.queue` is the
channel content after the dequeue.  `write` is the transport
(`w.Write`): `none` means success, `some msg` a write error. -/
def processDequeued (write : String → Option String) (req : NodeRequest)
    (st : BridgeState) : WriterResult :=
  match req.marshalResult with
  | .error m =>
    -- lines 84-92: marshal failed, send a terminal error chunk, continue
    match sendToSink st req.id (marshalErrorResp m) with
    | none => .blocked
    | some st1 => .next st1
  | .ok bytes =>
    -- lines 96-98: requestMap[rpcRequest.Id] = request
    let st1 := { st with requestMap := insertKey req.id req st.requestMap }
    match write bytes with
    | none => .next st1          -- lines 100, 122: write succeeded, flush
    | some werr =>
      -- lines 101-103: delete(requestMap, rpcRequest.Id)
      let st2 := { st1 with requestMap := eraseKey req.id st1.requestMap }
      -- line 105: request.Retries++
      let req' := { req with retries := req.retries + 1 }
      if req'.retries < 15 then
        -- lines 107-110: best-effort re-enqueue, dropped when the channel is full
        if st2.queue.length < st2.queueCap then
          .next { st2 with
                   queue := st2.queue ++ [req'],
                   reenqueues := st2.reenqueues + 1 }
        else
          .next st2
      else
        -- lines 111-118: retry exhaustion, terminal error chunk
        match sendToSink st2 req.id (sendFailedResp werr) with
        | none => .blocked
        | some st3 => .next st3

/-- One iteration of the writer loop: dequeue, then run the body. -/
def writerIter (write : String → Option String) (st : BridgeState) :
    WriterResult :=
  match st.queue with
  | [] => .waiting
  | req :: rest => processDequeued write req { st with queue := rest }

/-- Run the writer loop for up to `n` iterations, stopping when it waits or
blocks. -/
def writerRun (write : String → Option String) : Nat → BridgeState → BridgeState
  | 0, st => st
  | n + 1, st =>
    match writerIter write st with
    | .next st' => writerRun write n st'
    | _ => st

/-! ### The reverse-channel read loop (source lines 127-154) -/

inductive ReaderResult where
  /-- The loop body completed (or hit a decode error and executed `continue`);
  the loop continues with the new state. -/
  | next (st : BridgeState)
  /-- The loop is suspended sending to a full response sink (line 147). -/
  | blocked
  /-- The loop exits and the handler returns.  No branch of the source loop
  produces this: every path ends in `continue` or falls through to the next
  iteration. -/
  | exits
deriving DecidableEq

/-- Lines 143-145: `if response.Error != nil { response.Last = true }`. -/
def promote (r : Response) : Response :=
  if r.error.isSome then { r with last := true } else r

/-- One iteration of the handler's read loop.  When `input` is empty the JSON
decoder fails (EOF, closed body, cancelled context); the source logs the error
and executes `continue` with nothing consumed. -/
def bridgeReadIter (st : BridgeState) : ReaderResult :=
  match st.input with
  | [] => .next st                       -- lines 130-133: decode error, continue
  | none :: rest => .next { st with input := rest }  -- malformed object, continue
  | some resp :: rest =>
    match findEntry st.requestMap resp.id with
    | none => .next { st with input := rest }        -- lines 139-141: discard
    | some _ =>
      let resp' := promote resp
      match sendToSink st resp.id resp' with         -- line 147
      | none => .blocked
      | some st1 =>
        if resp'.last then                            -- lines 149-153
          .next { st1 with
                   requestMap := eraseKey resp.id st1.requestMap,
                   input := rest }
        else
          .next { st1 with input := rest }

/-- Run the read loop for up to `n` iterations, stopping when it blocks. -/
def readerRun : Nat → BridgeState → BridgeState
  | 0, st => st
  | n + 1, st =>
    match bridgeReadIter st with
    | .next st' => readerRun n st'
    | _ => st

/-! ### Interleaving of the two goroutines -/

/-- A scheduling choice: let the writer goroutine (with its transport) or the
reader loop take one iteration. -/
inductive Sched where
  | writer (write : String → Option String)
  | reader

/-- One scheduled iteration; a waiting or blocked goroutine makes no progress. -/
def schedStep (sc : Sched) (st : BridgeState) : BridgeState :=
  match sc with
  | .writer write =>
    match writerIter write st with
    | .next st' => st'
    | _ => st
  | .reader =>
    match bridgeReadIter st with
    | .next st' => st'
    | _ => st

def schedRun : List Sched → BridgeState → BridgeState
  | [], st => st
  | sc :: rest, st => schedRun rest (schedStep sc st)

/-! ### Observers -/

/-- The chunks sent to the sink of request `id`, in send order. -/
def eventsFor (id : String) (st : BridgeState) : List Response :=
  (st.events.filter (fun e => e.1 == id)).map (·.2)

/-- The companion-stream chunks addressed to request `rid`, in arrival order. -/
def chunksFor (rid : String) (input : List (Option Response)) : List Response :=
  input.filterMap (fun o =>
    match o with
    | none => none
    | some r => if r.id == rid then some r else none)

/-! ### Handler prologue: status line and handshake (source lines 26-53)

`net/http` response-writer semantics: the first `WriteHeader` (explicit or
implied by the first `Write`) commits the status line; any later `WriteHeader`
is superfluous and ignored. -/

structure ResponseWriter where
  committed : Option Nat
  body : List String
deriving DecidableEq

def ResponseWriter.writeHeader (w : ResponseWriter) (code : Nat) : ResponseWriter :=
  match w.committed with
  | some _ => w
  | none => { w with committed := some code }

def ResponseWriter.write (w : ResponseWriter) (s : String) : ResponseWriter :=
  match w.committed with
  | some _ => { w with body := w.body ++ [s] }
  | none => { committed := some 200, body := w.body ++ [s] }

/-- Modelled from the spec: `sessions.NodeInfo` (package `internal/sessions` is
missing from the sources); per the spec a node-info carries the node id and
last-known metadata (version, client-declared name). -/
structure NodeInfo where
  id : String
  name : String
  version : String
deriving DecidableEq

/-- The handshake object (source lines 41-45). -/
structure ConnectionInfo where
  version : Nat
  sessions : List String
  nodes : List NodeInfo
deriving DecidableEq

/-- Modelled from the spec: `internal.EncodeError` applied to
`diagnostics.AsBadRequestErr` (packages `api/internal` and the root
`diagnostics` package are missing from the sources); per the spec's error
taxonomy a *bad-request* error is rendered with HTTP status 400 and an error
body. -/
def encodeError (w : ResponseWriter) (msg : String) : ResponseWriter :=
  (w.writeHeader 400).write msg

/-- Outcome of the handler prologue: the response writer, and the ids of the
nodes for which a per-node writer goroutine was spawned (one per declared node,
source lines 58-125).  On the error path the handler returns before the node
loop, so nothing further is written to the body. -/
structure BridgeStartOutcome where
  respWriter : ResponseWriter
  spawnedWriters : List String
deriving DecidableEq

/-- Source lines 38-53: the handler writes the 200 status and flushes *before*
decoding the handshake; a handshake decode failure (`handshake = none`) is
answered with `EncodeError` and an early return. -/
def bridgeStart (handshake : Option ConnectionInfo) (w0 : ResponseWriter) :
    BridgeStartOutcome :=
  let w1 := w0.writeHeader 200
  match handshake with
  | none => ⟨encodeError w1 "Error reading connection info", []⟩
  | some info => ⟨w1, info.nodes.map (·.id)⟩

/-! ### The node-session registry (source lines 58-74)

`sessions.CacheService` lives in `internal/sessions`, which is missing from the
sources; its operations are modelled from the spec.  What *is* in the sources
is the handler's use of them: `FindNodeSession(node.Id)` receives only the id,
and `CreateNodeSession(node)` is called only when the lookup failed. -/

/-- Modelled from the spec: the server-side state of one subject node —
last-known metadata, attached session ids, connection state and the remote
address recorded at connect. -/
structure NodeSession where
  nodeInfo : NodeInfo
  attachedSessions : List String
  connected : Bool
  remoteAddr : String
deriving DecidableEq

/-- Modelled from the spec: the registry's directory of node records, keyed by
node id. -/
structure Cache where
  nodeSessions : List (String × NodeSession)
deriving DecidableEq

/-- Modelled from the spec: `CacheService.FindNodeSession` looks a node session
up by id. -/
def findNodeSession (c : Cache) (id : String) : Option NodeSession :=
  findEntry c.nodeSessions id

/-- Modelled from the spec: `CacheService.CreateNodeSession` records the
declared metadata in a fresh node record on first sight. -/
def createNodeSession (c : Cache) (n : NodeInfo) : NodeSession × Cache :=
  let ns : NodeSession := ⟨n, [], false, ""⟩
  (ns, ⟨insertKey n.id ns c.nodeSessions⟩)

/-- Modelled from the spec: `AttachSessions` is an idempotent union of the
declared session ids onto the attachment set. -/
def NodeSession.attachSessionIds (ns : NodeSession) (ids : List String) :
    NodeSession :=
  { ns with attachedSessions :=
      ns.attachedSessions ++ ids.filter (fun s => !(ns.attachedSessions.contains s)) }

/-- Modelled from the spec: `Connect` marks the session connected and records
the remote address. -/
def NodeSession.connectAddr (ns : NodeSession) (addr : String) : NodeSession :=
  { ns with connected := true, remoteAddr := addr }

/-- Source lines 58-74, for one declared node: find the node session by id,
create it only when absent, then attach the declared sessions and mark it
connected.  In the found case the new `NodeInfo` is never passed to the
registry — `FindNodeSession` receives only `node.Id`. -/
def handleNode (c : Cache) (sessionPins : List String) (remoteAddr : String)
    (node : NodeInfo) : Cache :=
  let found := findNodeSession c node.id
  let ns :=
    match found with
    | some ns => ns
    | none => (createNodeSession c node).1
  let c1 :=
    match found with
    | some _ => c
    | none => (createNodeSession c node).2
  let ns' := (ns.attachSessionIds sessionPins).connectAddr remoteAddr
  ⟨insertKey node.id ns' c1.nodeSessions⟩

/-! ### Lemmas about the association-list helpers -/

theorem findEntry_eraseKey_self {α : Type} (k : String) (l : List (String × α)) :
    findEntry (eraseKey k l) k = none := by
  induction l with
  | nil => rfl
  | cons p t ih =>
    obtain ⟨a, v⟩ := p
    by_cases h : a = k
    · subst h
      simpa [eraseKey, List.filter_cons] using ih
    · have hb : (a == k) = false := by simpa using h
      simp [eraseKey, List.filter_cons, hb, findEntry] at ih ⊢
      exact ih

theorem findEntry_eraseKey_ne {α : Type} (k id : String) (h : k ≠ id)
    (l : List (String × α)) :
    findEntry (eraseKey k l) id = findEntry l id := by
  induction l with
  | nil => rfl
  | cons p t ih =>
    obtain ⟨a, v⟩ := p
    by_cases ha : a = k
    · subst ha
      have hb : (a == id) = false := by simpa using h
      simp [eraseKey, List.filter_cons, findEntry, hb] at ih ⊢
      exact ih
    · have hb : (a == k) = false := by simpa using ha
      by_cases hid : a = id
      · subst hid
        simp [eraseKey, List.filter_cons, hb, findEntry]
      · have hb2 : (a == id) = false := by simpa using hid
        simp [eraseKey, List.filter_cons, hb, findEntry, hb2] at ih ⊢
        exact ih

theorem findEntry_insertKey_self {α : Type} (k : String) (v : α)
    (l : List (String × α)) :
    findEntry (insertKey k v l) k = some v := by
  simp [insertKey, findEntry]

theorem findEntry_insertKey_ne {α : Type} (k id : String) (h : k ≠ id) (v : α)
    (l : List (String × α)) :
    findEntry (insertKey k v l) id = findEntry l id := by
  have hb : (k == id) = false := by simpa using h
  simp [insertKey, findEntry, hb, findEntry_eraseKey_ne k id h l]

theorem eraseKey_insertKey {α : Type} (k : String) (v : α)
    (l : List (String × α)) :
    eraseKey k (insertKey k v l) = eraseKey k l := by
  simp [insertKey, eraseKey, List.filter_filter]

/-! ### Lemmas about the observers -/

theorem eventsFor_append (id q : String) (x : Response) (st : BridgeState)
    (es : List (String × Response)) (h : es = st.events ++ [(q, x)]) :
    (st.events.filter (fun e => e.1 == id)).map (·.2) ++
        (if q == id then [x] else []) =
      (es.filter (fun e => e.1 == id)).map (·.2) := by
  subst h
  simp [List.filter_append, List.filter_cons]
  split <;> simp

theorem chunksFor_nil (rid : String) : chunksFor rid [] = [] := rfl

theorem chunksFor_cons_none (rid : String) (l : List (Option Response)) :
    chunksFor rid (none :: l) = chunksFor rid l := by
  simp [chunksFor, List.filterMap_cons]

theorem chunksFor_cons_some (rid : String) (r : Response)
    (l : List (Option Response)) :
    chunksFor rid (some r :: l) =
      if r.id == rid then r :: chunksFor rid l else chunksFor rid l := by
  by_cases h : r.id = rid
  · simp [chunksFor, List.filterMap_cons, h]
  · simp [chunksFor, List.filterMap_cons, h]

/-! ### Claims about single iterations of the two loops -/

/-- C1: the claim says that when the request body ends (or the remote closes,
or the context cancels — all of which surface as a decode error) the read loop
terminates and the endpoint invokes disconnect on every connected node.  In the
source every branch of the loop ends in `continue`: the decode-error branch
(lines 130-133) logs and retries, so on EOF the loop spins forever, the handler
never returns, `RequestCh` is never closed, and the writer goroutine's deferred
`nodeSession.Disconnect()` never runs.  This theorem shows the loop has no exit
at all (`exits` is never produced) and that at end-of-body an iteration leaves
the state untouched: the loop makes no progress and never reaches teardown. -/
theorem c1_read_loop_never_exits :
    (∀ st : BridgeState, bridgeReadIter st ≠ ReaderResult.exits) ∧
    (∀ st : BridgeState, st.input = [] → bridgeReadIter st = ReaderResult.next st) := by
  constructor
  · intro st
    rcases hin : st.input with _ | ⟨mr, rest⟩
    · simp [bridgeReadIter, hin]
    · rcases mr with _ | resp
      · simp [bridgeReadIter, hin]
      · rcases hfe : findEntry st.requestMap resp.id with _ | req
        · simp [bridgeReadIter, hin, hfe]
        · rcases hs : sendToSink st resp.id (promote resp) with _ | st1
          · simp [bridgeReadIter, hin, hfe, hs]
          · by_cases hl : (promote resp).last <;>
              simp [bridgeReadIter, hin, hfe, hs, hl]
  · intro st h
    simp [bridgeReadIter, h]

def c1EofState : BridgeState :=
  { queue := [], queueCap := 16, requestMap := [], sinks := [], events := [],
    input := [], reenqueues := 0 }

theorem c1_read_loop_never_exits_witness :
    bridgeReadIter c1EofState ≠ ReaderResult.exits ∧
    bridgeReadIter c1EofState = ReaderResult.next c1EofState :=
  ⟨c1_read_loop_never_exits.1 c1EofState,
   c1_read_loop_never_exits.2 c1EofState rfl⟩

/-- C6: a decoded response chunk carrying an error whose id is in the
correlator is delivered to that request's sink with `last` forced to `true`
(source lines 143-145) and the correlator entry is removed (lines 149-153). -/
theorem c6_error_chunk_terminal (st : BridgeState) (resp : Response)
    (rest : List (Option Response)) (req : NodeRequest) (s : Sink)
    (hin : st.input = some resp :: rest)
    (herr : resp.error.isSome)
    (hfound : findEntry st.requestMap resp.id = some req)
    (hsink : findEntry st.sinks resp.id = some s)
    (hroom : s.buf.length < s.cap) :
    ∃ st', bridgeReadIter st = ReaderResult.next st' ∧
      st'.events = st.events ++ [(resp.id, { resp with last := true })] ∧
      findEntry st'.sinks resp.id =
        some ⟨s.cap, s.buf ++ [{ resp with last := true }]⟩ ∧
      findEntry st'.requestMap resp.id = none ∧
      st'.input = rest := by
  have hpl : promote resp = { resp with last := true } := by simp [promote, herr]
  have hsend : sendToSink st resp.id { resp with last := true } =
      some { st with
              sinks := insertKey resp.id
                ⟨s.cap, s.buf ++ [{ resp with last := true }]⟩ st.sinks,
              events := st.events ++ [(resp.id, { resp with last := true })] } := by
    simp [sendToSink, hsink, hroom]
  refine ⟨{ st with
             requestMap := eraseKey resp.id st.requestMap,
             sinks := insertKey resp.id
               ⟨s.cap, s.buf ++ [{ resp with last := true }]⟩ st.sinks,
             events := st.events ++ [(resp.id, { resp with last := true })],
             input := rest }, ?_, by simp, ?_, ?_, by simp⟩
  · simp [bridgeReadIter, hin, hfound, hpl, hsend]
  · simp [findEntry_insertKey_self]
  · simp [findEntry_eraseKey_self]

def respErr : Response := ⟨"rA", none, some ⟨"boom"⟩, false⟩
def reqA : NodeRequest := ⟨"rA", .ok "bytes-a", 0⟩
def reqB : NodeRequest := ⟨"rB", .ok "bytes-b", 0⟩

def c6State : BridgeState :=
  { queue := [], queueCap := 16, requestMap := [("rA", reqA)],
    sinks := [("rA", ⟨4, []⟩)], events := [], input := [some respErr],
    reenqueues := 0 }

theorem c6_error_chunk_terminal_witness :
    ∃ st', bridgeReadIter c6State = ReaderResult.next st' ∧
      st'.events = c6State.events ++ [("rA", { respErr with last := true })] ∧
      findEntry st'.sinks "rA" = some ⟨4, [{ respErr with last := true }]⟩ ∧
      findEntry st'.requestMap "rA" = none ∧
      st'.input = [] :=
  c6_error_chunk_terminal c6State respErr [] reqA ⟨4, []⟩ (by decide) (by decide)
    (by decide) (by decide) (by decide)

/-- C8: a decoded chunk whose id has no correlator entry is silently discarded
(source lines 139-141): the iteration only consumes the input object; the
correlator map, every sink and the event log are unchanged. -/
theorem c8_unknown_id_discarded (st : BridgeState) (resp : Response)
    (rest : List (Option Response))
    (hin : st.input = some resp :: rest)
    (hmiss : findEntry st.requestMap resp.id = none) :
    bridgeReadIter st = ReaderResult.next { st with input := rest } := by
  simp [bridgeReadIter, hin, hmiss]

def c8State : BridgeState :=
  { queue := [], queueCap := 16, requestMap := [("rB", reqB)],
    sinks := [("rB", ⟨4, []⟩)], events := [], input := [some respErr],
    reenqueues := 0 }

theorem c8_unknown_id_discarded_witness :
    bridgeReadIter c8State = ReaderResult.next { c8State with input := [] } :=
  c8_unknown_id_discarded c8State respErr [] (by decide) (by decide)

/-! ### C5: cross-request independence fails -/

def respA1 : Response := ⟨"rA", some "p1", none, false⟩
def respA2 : Response := ⟨"rA", some "p2", none, false⟩
def respB1 : Response := ⟨"rB", some "p3", none, false⟩

def c5Init : BridgeState :=
  { queue := [], queueCap := 16,
    requestMap := [("rA", reqA), ("rB", reqB)],
    sinks := [("rA", ⟨1, []⟩), ("rB", ⟨4, []⟩)],
    events := [], input := [some respA1, some respA2, some respB1],
    reenqueues := 0 }

/-- C5 counterexample: requests `rA` (sink capacity 1, reader never consuming)
and `rB` are both live; the companion sends two chunks for `rA` and then one
for `rB`.  After delivering the first `rA` chunk the single read loop blocks on
`rA`'s full sink (source line 147 is a blocking channel send executed by the
one goroutine that serves every request): five iterations get no further than
one, the loop is `blocked`, and `rB`'s chunk — already decoded-ready on the
stream — is never delivered.  A slow reader of request A therefore does block
delivery to request B, refuting the claim. -/
theorem c5_counterexample :
    readerRun 5 c5Init = readerRun 1 c5Init ∧
    bridgeReadIter (readerRun 5 c5Init) = ReaderResult.blocked ∧
    eventsFor "rA" (readerRun 5 c5Init) = [respA1] ∧
    eventsFor "rB" (readerRun 5 c5Init) = [] ∧
    (readerRun 5 c5Init).input = [some respA2, some respB1] := by decide

/-- C5 amended: chunk delivery is *not* independent across requests — the
reverse channel is served by a single sequential loop, and a chunk addressed to
a request whose sink is full blocks that loop (`request.Responses <- &response`
at source line 147), so no later chunk of any request on the connection is
delivered until the blocked sink drains: every further iteration leaves the
state unchanged. -/
theorem c5_blocked_sink_stalls_all (st : BridgeState) (resp : Response)
    (rest : List (Option Response)) (s : Sink) (q : NodeRequest) (n : Nat)
    (hin : st.input = some resp :: rest)
    (hfound : findEntry st.requestMap resp.id = some q)
    (hsink : findEntry st.sinks resp.id = some s)
    (hfull : ¬ s.buf.length < s.cap) :
    bridgeReadIter st = ReaderResult.blocked ∧ readerRun n st = st := by
  have hb : bridgeReadIter st = ReaderResult.blocked := by
    have hsend : sendToSink st resp.id (promote resp) = none := by
      simp [sendToSink, hsink, hfull]
    simp [bridgeReadIter, hin, hfound, hsend]
  refine ⟨hb, ?_⟩
  cases n with
  | zero => rfl
  | succ n => simp [readerRun, hb]

def c5Stuck : BridgeState :=
  { queue := [], queueCap := 16,
    requestMap := [("rA", reqA), ("rB", reqB)],
    sinks := [("rA", ⟨1, [respA1]⟩), ("rB", ⟨4, []⟩)],
    events := [("rA", respA1)], input := [some respA2, some respB1],
    reenqueues := 0 }

theorem c5_blocked_sink_stalls_all_witness :
    bridgeReadIter c5Stuck = ReaderResult.blocked ∧ readerRun 7 c5Stuck = c5Stuck :=
  c5_blocked_sink_stalls_all c5Stuck respA2 [some respB1] ⟨1, [respA1]⟩ reqA 7
    (by decide) (by decide) (by decide) (by decide)

/-! ### C10: marshal failure -/

/-- C10: when `json.Marshal` of a dequeued request fails (source lines 82-92)
the request's sink receives exactly one terminal error chunk, the request is
never inserted into the correlator map (the insert at line 97 is only reached
after a successful marshal), its retry counter is not incremented (no component
of the new state retains the request at all), and the writer continues with the
next queued request. -/
theorem c10_marshal_failure (write : String → Option String) (st : BridgeState)
    (req : NodeRequest) (rest : List NodeRequest) (m : String) (s : Sink)
    (hq : st.queue = req :: rest)
    (hm : req.marshalResult = .error m)
    (hsink : findEntry st.sinks req.id = some s)
    (hroom : s.buf.length < s.cap) :
    ∃ st', writerIter write st = WriterResult.next st' ∧
      st'.events = st.events ++ [(req.id, marshalErrorResp m)] ∧
      st'.requestMap = st.requestMap ∧
      st'.queue = rest ∧
      st'.reenqueues = st.reenqueues := by
  refine ⟨{ st with
             queue := rest,
             sinks := insertKey req.id ⟨s.cap, s.buf ++ [marshalErrorResp m]⟩ st.sinks,
             events := st.events ++ [(req.id, marshalErrorResp m)] },
          ?_, by simp, by simp, by simp, by simp⟩
  have hsend : sendToSink { st with queue := rest } req.id (marshalErrorResp m) =
      some { st with
              queue := rest,
              sinks := insertKey req.id ⟨s.cap, s.buf ++ [marshalErrorResp m]⟩ st.sinks,
              events := st.events ++ [(req.id, marshalErrorResp m)] } := by
    simp [sendToSink, hsink, hroom]
  simp [writerIter, hq, processDequeued, hm, hsend]

def reqBad : NodeRequest := ⟨"rC", .error "unsupported payload", 3⟩

def c10State : BridgeState :=
  { queue := [reqBad, reqB], queueCap := 16, requestMap := [("rA", reqA)],
    sinks := [("rC", ⟨4, []⟩), ("rB", ⟨4, []⟩)], events := [], input := [],
    reenqueues := 0 }

theorem c10_marshal_failure_witness :
    ∃ st', writerIter (fun _ => none) c10State = WriterResult.next st' ∧
      st'.events = c10State.events ++ [("rC", marshalErrorResp "unsupported payload")] ∧
      st'.requestMap = c10State.requestMap ∧
      st'.queue = [reqB] ∧
      st'.reenqueues = c10State.reenqueues :=
  c10_marshal_failure (fun _ => none) c10State reqBad [reqB]
    "unsupported payload" ⟨4, []⟩ (by decide) (by decide) (by decide) (by decide)

/-! ### C2: retry bound under a failing transport -/

def failingWrite (emsg : String) : String → Option String := fun _ => some emsg

/-- The writer's view while retrying one request under a failing transport:
the request back at the head of the (otherwise empty) channel with retry
counter `k`, nothing in the correlator, the sink still empty. -/
def retryState (qid bytes : String) (k e : Nat) (E : List (String × Response)) :
    BridgeState :=
  { queue := [⟨qid, .ok bytes, k⟩], queueCap := 16, requestMap := [],
    sinks := [(qid, ⟨16, []⟩)], events := E, input := [], reenqueues := e }

/-- The state after retry exhaustion: queue and correlator empty, exactly one
*send-failed* terminal chunk on the request's sink. -/
def retryFinal (qid emsg : String) (e : Nat) (E : List (String × Response)) :
    BridgeState :=
  { queue := [], queueCap := 16, requestMap := [],
    sinks := [(qid, ⟨16, [sendFailedResp emsg]⟩)],
    events := E ++ [(qid, sendFailedResp emsg)], input := [], reenqueues := e }

theorem retry_step (qid bytes emsg : String) (k e : Nat)
    (E : List (String × Response)) (hk : k + 1 < 15) :
    writerIter (failingWrite emsg) (retryState qid bytes k e E) =
      WriterResult.next (retryState qid bytes (k + 1) (e + 1) E) := by
  simp [writerIter, retryState, processDequeued, failingWrite, insertKey,
        eraseKey, hk, sendToSink, findEntry]

theorem retry_final_step (qid bytes emsg : String) (e : Nat)
    (E : List (String × Response)) :
    writerIter (failingWrite emsg) (retryState qid bytes 14 e E) =
      WriterResult.next (retryFinal qid emsg e E) := by
  simp [writerIter, retryState, retryFinal, processDequeued, failingWrite,
        insertKey, eraseKey, sendToSink, findEntry]

theorem retry_run (qid bytes emsg : String) :
    ∀ (j k e : Nat) (E : List (String × Response)), k + j = 15 → 1 ≤ j →
    writerRun (failingWrite emsg) j (retryState qid bytes k e E) =
      retryFinal qid emsg (e + (j - 1)) E := by
  intro j
  induction j with
  | zero => intro k e E _ h1; omega
  | succ j ih =>
    intro k e E hk _
    cases j with
    | zero =>
      have hk14 : k = 14 := by omega
      subst hk14
      simp [writerRun, retry_final_step]
    | succ j' =>
      have hk1 : k + 1 < 15 := by omega
      have hstep := retry_step qid bytes emsg k e E hk1
      have hrest := ih (k + 1) (e + 1) E (by omega) (by omega)
      calc writerRun (failingWrite emsg) (j' + 1 + 1) (retryState qid bytes k e E)
          = writerRun (failingWrite emsg) (j' + 1)
              (retryState qid bytes (k + 1) (e + 1) E) := by
            simp [writerRun, hstep]
        _ = retryFinal qid emsg ((e + 1) + (j' + 1 - 1)) E := hrest
        _ = retryFinal qid emsg (e + (j' + 1 + 1 - 1)) E := by
            congr 1
            omega

/-- C2: under a transport whose writes always fail, a dequeued request with
retry counter 0 is re-enqueued exactly 14 times (the ghost counter
`reenqueues`, incremented only by a successful failed-write re-enqueue, ends at
14, and the writer is then waiting on an empty channel so no further
re-enqueue can occur); at the 15th failure its retry counter reaches 15 and
its sink receives exactly one terminal *send-failed* error chunk, with its
entry absent from the correlator map. -/
theorem c2_retry_bound (qid bytes emsg : String) :
    writerRun (failingWrite emsg) 15 (retryState qid bytes 0 0 []) =
      { queue := [], queueCap := 16, requestMap := [],
        sinks := [(qid, ⟨16, [sendFailedResp emsg]⟩)],
        events := [(qid, sendFailedResp emsg)], input := [], reenqueues := 14 } ∧
    writerIter (failingWrite emsg)
        (writerRun (failingWrite emsg) 15 (retryState qid bytes 0 0 [])) =
      WriterResult.waiting := by
  have h := retry_run qid bytes emsg 15 0 0 [] rfl (by omega)
  refine ⟨?_, ?_⟩
  · rw [h]
    simp [retryFinal]
  · rw [h]
    simp [writerIter, retryFinal]

/-! ### C4: dropped re-enqueues leave a request with no terminal event -/

theorem sendToSink_shape (st : BridgeState) (sid : String) (r : Response)
    (st1 : BridgeState) (h : sendToSink st sid r = some st1) :
    st1.queue = st.queue ∧ st1.queueCap = st.queueCap ∧
    st1.requestMap = st.requestMap ∧
    st1.events = st.events ++ [(sid, r)] ∧ st1.input = st.input ∧
    st1.reenqueues = st.reenqueues := by
  unfold sendToSink at h
  rcases hf : findEntry st.sinks sid with _ | s
  · simp only [hf] at h
    cases h
  · simp only [hf] at h
    by_cases hr : s.buf.length < s.cap
    · rw [if_pos hr] at h
      cases h
      simp
    · rw [if_neg hr] at h
      cases h

theorem eventsFor_append_ne (id sid : String) (r : Response)
    (st st' : BridgeState) (hne : sid ≠ id)
    (h : st'.events = st.events ++ [(sid, r)]) :
    eventsFor id st' = eventsFor id st := by
  have hb : (sid == id) = false := by simpa using hne
  simp [eventsFor, h, List.filter_append, List.filter_cons, hb]

theorem processDequeued_preserves (write : String → Option String)
    (req : NodeRequest) (st st' : BridgeState) (id : String)
    (hne : req.id ≠ id)
    (hq : ∀ r ∈ st.queue, r.id ≠ id)
    (hm : findEntry st.requestMap id = none)
    (hstep : processDequeued write req st = WriterResult.next st') :
    (∀ r ∈ st'.queue, r.id ≠ id) ∧
    findEntry st'.requestMap id = none ∧
    eventsFor id st' = eventsFor id st := by
  simp only [processDequeued] at hstep
  split at hstep
  · -- marshal failed: one error chunk to the request's own sink
    rename_i m _
    split at hstep
    · cases hstep
    · rename_i st1 hs
      cases hstep
      obtain ⟨h1, _, h3, h4, _, _⟩ := sendToSink_shape _ _ _ _ hs
      exact ⟨by rw [h1]; exact hq, by rw [h3]; exact hm,
             eventsFor_append_ne id req.id (marshalErrorResp m) st st' hne h4⟩
  · -- marshal succeeded: insert, then write
    rename_i bytes _
    split at hstep
    · -- write succeeded
      cases hstep
      refine ⟨by simpa using hq, ?_, by simp [eventsFor]⟩
      simpa [findEntry_insertKey_ne req.id id hne] using hm
    · -- write failed
      rename_i werr hw
      have hmap : findEntry
          (eraseKey req.id (insertKey req.id req st.requestMap)) id = none := by
        rw [eraseKey_insertKey, findEntry_eraseKey_ne req.id id hne]
        exact hm
      split at hstep
      · -- retries below 15
        split at hstep
        · -- re-enqueued at the tail
          cases hstep
          refine ⟨?_, by simpa using hmap, by simp [eventsFor]⟩
          intro r hr
          simp at hr
          rcases hr with hr | hr
          · exact hq r hr
          · simp [hr, hne]
        · -- channel full: dropped
          cases hstep
          exact ⟨by simpa using hq, by simpa using hmap, by simp [eventsFor]⟩
      · -- retries exhausted: send-failed chunk to the request's own sink
        split at hstep
        · cases hstep
        · rename_i st3 hs
          cases hstep
          obtain ⟨h1, _, h3, h4, _, _⟩ := sendToSink_shape _ _ _ _ hs
          refine ⟨?_, ?_, ?_⟩
          · intro r hr
            rw [h1] at hr
            exact hq r (by simpa using hr)
          · rw [h3]
            simpa using hmap
          · exact eventsFor_append_ne id req.id (sendFailedResp werr) st st' hne
              (by simpa using h4)

theorem bridgeReadIter_preserves (st st' : BridgeState) (id : String)
    (hq : ∀ r ∈ st.queue, r.id ≠ id)
    (hm : findEntry st.requestMap id = none)
    (hstep : bridgeReadIter st = ReaderResult.next st') :
    (∀ r ∈ st'.queue, r.id ≠ id) ∧
    findEntry st'.requestMap id = none ∧
    eventsFor id st' = eventsFor id st := by
  simp only [bridgeReadIter] at hstep
  split at hstep
  · cases hstep
    exact ⟨hq, hm, rfl⟩
  · cases hstep
    exact ⟨hq, hm, rfl⟩
  · rename_i resp rest heq
    split at hstep
    · cases hstep
      exact ⟨hq, hm, rfl⟩
    · rename_i req hfound
      have hneq : resp.id ≠ id := by
        intro hcontra
        rw [hcontra] at hfound
        rw [hm] at hfound
        cases hfound
      split at hstep
      · cases hstep
      · rename_i st1 hs
        obtain ⟨h1, _, h3, h4, _, _⟩ := sendToSink_shape _ _ _ _ hs
        split at hstep <;> cases hstep
        · refine ⟨?_, ?_, ?_⟩
          · intro r hr
            simp only [] at hr
            rw [h1] at hr
            exact hq r hr
          · simp only []
            rw [findEntry_eraseKey_ne resp.id id hneq, h3]
            exact hm
          · have : eventsFor id st1 = eventsFor id st :=
              eventsFor_append_ne id resp.id (promote resp) st st1 hneq h4
            simpa [eventsFor] using this
        · refine ⟨?_, ?_, ?_⟩
          · intro r hr
            simp only [] at hr
            rw [h1] at hr
            exact hq r hr
          · simp only []
            rw [h3]
            exact hm
          · have : eventsFor id st1 = eventsFor id st :=
              eventsFor_append_ne id resp.id (promote resp) st st1 hneq h4
            simpa [eventsFor] using this

theorem schedStep_preserves (sc : Sched) (st : BridgeState) (id : String)
    (hq : ∀ r ∈ st.queue, r.id ≠ id)
    (hm : findEntry st.requestMap id = none) :
    (∀ r ∈ (schedStep sc st).queue, r.id ≠ id) ∧
    findEntry (schedStep sc st).requestMap id = none ∧
    eventsFor id (schedStep sc st) = eventsFor id st := by
  rcases sc with write | _
  · simp only [schedStep]
    rcases hw : writerIter write st with st' | _ | _
    · rcases hqs : st.queue with _ | ⟨req, rest⟩
      · rw [writerIter, hqs] at hw
        cases hw
      · rw [writerIter, hqs] at hw
        have hqr : ∀ r ∈ ({ st with queue := rest } : BridgeState).queue, r.id ≠ id := by
          intro r hr
          exact hq r (by simp only [] at hr; rw [hqs]; exact List.mem_cons_of_mem _ hr)
        have hres := processDequeued_preserves write req { st with queue := rest } st' id
          (hq req (by rw [hqs]; exact List.mem_cons_self _ _)) hqr (by simpa using hm) hw
        simpa [eventsFor] using hres
    · exact ⟨hq, hm, rfl⟩
    · exact ⟨hq, hm, rfl⟩
  · simp only [schedStep]
    rcases hw : bridgeReadIter st with st' | _ | _
    · exact bridgeReadIter_preserves st st' id hq hm hw
    · exact ⟨hq, hm, rfl⟩
    · exact ⟨hq, hm, rfl⟩

theorem schedRun_preserves (sched : List Sched) (st : BridgeState) (id : String)
    (hq : ∀ r ∈ st.queue, r.id ≠ id)
    (hm : findEntry st.requestMap id = none) :
    (∀ r ∈ (schedRun sched st).queue, r.id ≠ id) ∧
    findEntry (schedRun sched st).requestMap id = none ∧
    eventsFor id (schedRun sched st) = eventsFor id st := by
  induction sched generalizing st with
  | nil => exact ⟨hq, hm, rfl⟩
  | cons sc rest ih =>
    obtain ⟨h1, h2, h3⟩ := schedStep_preserves sc st id hq hm
    obtain ⟨g1, g2, g3⟩ := ih (schedStep sc st) h1 h2
    exact ⟨g1, g2, by rw [schedRun]; rw [g3, h3]⟩

def c4State : BridgeState :=
  { queue := [reqB], queueCap := 1, requestMap := [],
    sinks := [("rA", ⟨4, []⟩), ("rB", ⟨4, []⟩)], events := [], input := [],
    reenqueues := 0 }

/-- C4 counterexample: request `rA` has been dequeued while another request
fills the capacity-1 channel; the write of `rA` fails, its retry counter is
below 15, and the best-effort re-enqueue (source lines 107-110) hits the
`default` branch of the `select`: `rA` is dropped on the floor.  The resulting
state is unchanged except that `rA` is referenced by neither the queue nor the
correlator, and its sink has received no event at all — not the "exactly one
terminal event" the claim asserts for this very case. -/
theorem c4_counterexample :
    processDequeued (fun _ => some "io error") reqA c4State =
      WriterResult.next c4State ∧
    eventsFor "rA" c4State = [] ∧
    (findEntry c4State.requestMap "rA").isNone = true ∧
    c4State.queue.all (fun r => !(r.id == "rA")) = true := by decide

/-- C4 amended: a request whose failed write leads to a best-effort re-enqueue
against a full queue is dropped with *no* terminal event: the step emits
nothing to its sink, leaves it referenced by neither queue nor correlator map,
and — because the writer only ever emits events for the request it holds and
the reader only for ids present in the correlator — no later interleaving of
writer and reader steps ever emits an event to that request's sink (request
ids being unique per request, nothing re-introduces the id). -/
theorem c4_dropped_request_never_terminated (write : String → Option String)
    (req : NodeRequest) (st : BridgeState) (bytes werr : String)
    (sched : List Sched)
    (hmar : req.marshalResult = .ok bytes)
    (hw : write bytes = some werr)
    (hr : req.retries + 1 < 15)
    (hfull : ¬ st.queue.length < st.queueCap)
    (hq : ∀ r ∈ st.queue, r.id ≠ req.id) :
    ∃ st', processDequeued write req st = WriterResult.next st' ∧
      st'.queue = st.queue ∧
      st'.events = st.events ∧
      findEntry st'.requestMap req.id = none ∧
      eventsFor req.id (schedRun sched st') = eventsFor req.id st := by
  have hmap : findEntry
      (eraseKey req.id (insertKey req.id req st.requestMap)) req.id = none := by
    rw [eraseKey_insertKey, findEntry_eraseKey_self]
  refine ⟨{ st with requestMap := eraseKey req.id (insertKey req.id req st.requestMap) },
          ?_, by simp, by simp, by simpa using hmap, ?_⟩
  · simp [processDequeued, hmar, hw, hr, hfull]
  · obtain ⟨_, _, h3⟩ := schedRun_preserves sched
      { st with requestMap := eraseKey req.id (insertKey req.id req st.requestMap) }
      req.id (by simpa using hq) (by simpa using hmap)
    rw [h3]
    simp [eventsFor]

theorem c4_dropped_request_never_terminated_witness :
    ∃ st', processDequeued (fun _ => some "io error") reqA c4State =
        WriterResult.next st' ∧
      st'.queue = c4State.queue ∧
      st'.events = c4State.events ∧
      findEntry st'.requestMap "rA" = none ∧
      eventsFor "rA" (schedRun [Sched.reader, Sched.writer (fun _ => none)] st') =
        eventsFor "rA" c4State :=
  c4_dropped_request_never_terminated (fun _ => some "io error") reqA c4State
    "bytes-a" "io error" [Sched.reader, Sched.writer (fun _ => none)]
    (by decide) rfl (by decide) (by decide) (by decide)

/-! ### C7: per-request arrival order is preserved -/

theorem eventsFor_append_split (id sid : String) (r : Response)
    (st st' : BridgeState) (h : st'.events = st.events ++ [(sid, r)]) :
    eventsFor id st' = eventsFor id st ++ (if sid = id then [r] else []) := by
  by_cases hs : sid = id
  · subst hs
    simp [eventsFor, h, List.filter_append, List.filter_cons]
  · have hb : (sid == id) = false := by simpa using hs
    simp [eventsFor, h, List.filter_append, List.filter_cons, hb, hs]

/-- C7: within one request id the read loop preserves arrival order.  Over any
number of iterations, the chunks newly delivered to request `rid`'s sink form
an order-preserving subsequence (`List.Sublist`) of the companion-stream chunks
addressed to `rid` (with their error-promotion applied); a subsequence rather
than a prefix because chunks whose id has no correlator entry are discarded,
and the delivered sequence is interleaved with no chunk of any other id.
No ordering across different request ids is stated. -/
theorem c7_order_preservation (rid : String) :
    ∀ (n : Nat) (st : BridgeState),
    ∃ t, eventsFor rid (readerRun n st) = eventsFor rid st ++ t ∧
      List.Sublist t ((chunksFor rid st.input).map promote) := by
  intro n
  induction n with
  | zero => exact fun st => ⟨[], by simp [readerRun], List.nil_sublist _⟩
  | succ n ih =>
    intro st
    rcases hin : st.input with _ | ⟨mr, rest⟩
    · -- decode error (EOF): the iteration leaves the state unchanged
      have hstep : bridgeReadIter st = ReaderResult.next st := by
        simp [bridgeReadIter, hin]
      have hrun : readerRun (n + 1) st = readerRun n st := by
        simp [readerRun, hstep]
      obtain ⟨t, h1, h2⟩ := ih st
      refine ⟨t, by rw [hrun, h1], ?_⟩
      rw [hin] at h2
      exact h2
    · rcases mr with _ | resp
      · -- malformed object: skipped
        have hstep : bridgeReadIter st = ReaderResult.next { st with input := rest } := by
          simp [bridgeReadIter, hin]
        have hrun : readerRun (n + 1) st =
            readerRun n { st with input := rest } := by
          simp [readerRun, hstep]
        obtain ⟨t, h1, h2⟩ := ih { st with input := rest }
        refine ⟨t, ?_, ?_⟩
        · rw [hrun, h1]
          simp [eventsFor]
        · rw [chunksFor_cons_none]
          simpa using h2
      · rcases hfe : findEntry st.requestMap resp.id with _ | req
        · -- unknown id: silently discarded
          have hstep : bridgeReadIter st =
              ReaderResult.next { st with input := rest } := by
            simp [bridgeReadIter, hin, hfe]
          have hrun : readerRun (n + 1) st =
              readerRun n { st with input := rest } := by
            simp [readerRun, hstep]
          obtain ⟨t, h1, h2⟩ := ih { st with input := rest }
          refine ⟨t, ?_, ?_⟩
          · rw [hrun, h1]
            simp [eventsFor]
          · by_cases hid : resp.id = rid
            · rw [chunksFor_cons_some, if_pos (by simpa using hid)]
              exact List.Sublist.cons _ (by simpa using h2)
            · rw [chunksFor_cons_some, if_neg (by simpa using hid)]
              simpa using h2
        · -- entry found: deliver (or block on a full sink)
          rcases hs : sendToSink st resp.id (promote resp) with _ | st1
          · have hstep : bridgeReadIter st = ReaderResult.blocked := by
              simp [bridgeReadIter, hin, hfe, hs]
            have hrun : readerRun (n + 1) st = st := by
              simp [readerRun, hstep]
            exact ⟨[], by simp [hrun], List.nil_sublist _⟩
          · obtain ⟨_, _, _, hq4, hq5, _⟩ := sendToSink_shape _ _ _ _ hs
            by_cases hl : (promote resp).last
            · -- terminal chunk: entry erased after the send
              have hstep : bridgeReadIter st = ReaderResult.next
                  { st1 with requestMap := eraseKey resp.id st1.requestMap,
                             input := rest } := by
                simp [bridgeReadIter, hin, hfe, hs, hl]
              have hrun : readerRun (n + 1) st = readerRun n
                  { st1 with requestMap := eraseKey resp.id st1.requestMap,
                             input := rest } := by
                simp [readerRun, hstep]
              obtain ⟨t, h1, h2⟩ := ih
                { st1 with requestMap := eraseKey resp.id st1.requestMap,
                           input := rest }
              have hev : eventsFor rid
                  ({ st1 with requestMap := eraseKey resp.id st1.requestMap,
                              input := rest } : BridgeState) =
                  eventsFor rid st ++
                    (if resp.id = rid then [promote resp] else []) :=
                eventsFor_append_split rid resp.id (promote resp) st _
                  (by simpa using hq4)
              by_cases hid : resp.id = rid
              · refine ⟨promote resp :: t, ?_, ?_⟩
                · rw [hrun, h1, hev, if_pos hid]
                  simp
                · rw [chunksFor_cons_some, if_pos (by simpa using hid)]
                  exact List.Sublist.cons₂ _ (by simpa using h2)
              · refine ⟨t, ?_, ?_⟩
                · rw [hrun, h1, hev, if_neg hid]
                  simp
                · rw [chunksFor_cons_some, if_neg (by simpa using hid)]
                  simpa using h2
            · -- non-terminal chunk: entry kept
              have hstep : bridgeReadIter st = ReaderResult.next
                  { st1 with input := rest } := by
                simp [bridgeReadIter, hin, hfe, hs, hl]
              have hrun : readerRun (n + 1) st = readerRun n
                  { st1 with input := rest } := by
                simp [readerRun, hstep]
              obtain ⟨t, h1, h2⟩ := ih { st1 with input := rest }
              have hev : eventsFor rid ({ st1 with input := rest } : BridgeState) =
                  eventsFor rid st ++
                    (if resp.id = rid then [promote resp] else []) :=
                eventsFor_append_split rid resp.id (promote resp) st _
                  (by simpa using hq4)
              by_cases hid : resp.id = rid
              · refine ⟨promote resp :: t, ?_, ?_⟩
                · rw [hrun, h1, hev, if_pos hid]
                  simp
                · rw [chunksFor_cons_some, if_pos (by simpa using hid)]
                  exact List.Sublist.cons₂ _ (by simpa using h2)
              · refine ⟨t, ?_, ?_⟩
                · rw [hrun, h1, hev, if_neg hid]
                  simp
                · rw [chunksFor_cons_some, if_neg (by simpa using hid)]
                  simpa using h2

/-! ### C3: malformed handshake cannot produce HTTP 400 -/

/-- C3 counterexample: the handler commits and flushes HTTP 200 (source lines
38-39) *before* decoding the handshake, so when the first JSON object is
malformed the status the companion has received is 200; the 400 that
`EncodeError` attempts is a superfluous `WriteHeader` on an already-committed
response and never reaches the wire.  (The early return does mean no per-node
writer is spawned and no request is written — those parts of the claim hold.) -/
theorem c3_counterexample :
    (bridgeStart none ⟨none, []⟩).respWriter.committed = some 200 ∧
    (bridgeStart none ⟨none, []⟩).respWriter.committed ≠ some 400 ∧
    (bridgeStart none ⟨none, []⟩).spawnedWriters = [] := by decide

/-- C3 amended: on a malformed handshake the endpoint ends the connection with
the already-committed HTTP status 200 (the 400 of the bad-request error is
attempted but superfluous), an error body is written, and no per-node writer is
spawned and no request is written to the response body. -/
theorem c3_malformed_handshake (w0 : ResponseWriter) (hw : w0.committed = none) :
    (bridgeStart none w0).respWriter.committed = some 200 ∧
    (bridgeStart none w0).respWriter.body =
      w0.body ++ ["Error reading connection info"] ∧
    (bridgeStart none w0).spawnedWriters = [] := by
  simp [bridgeStart, encodeError, ResponseWriter.writeHeader,
        ResponseWriter.write, hw]

theorem c3_malformed_handshake_witness :
    (bridgeStart none ⟨none, []⟩).respWriter.committed = some 200 ∧
    (bridgeStart none ⟨none, []⟩).respWriter.body =
      ([] : List String) ++ ["Error reading connection info"] ∧
    (bridgeStart none ⟨none, []⟩).spawnedWriters = [] :=
  c3_malformed_handshake ⟨none, []⟩ rfl

/-! ### C9: repeat handshake does not refresh node metadata -/

def oldNodeA : NodeInfo := ⟨"nA", "erigon-old", "1.0"⟩
def newNodeA : NodeInfo := ⟨"nA", "erigon-new", "2.0"⟩
def c9Cache : Cache := ⟨[("nA", ⟨oldNodeA, [], false, ""⟩)]⟩

/-- C9 counterexample: the registry already knows node `nA` with metadata
`oldNodeA`; a new handshake declares `nA` with different metadata `newNodeA`.
Source lines 58-74 call `FindNodeSession(node.Id)` — only the id — and on a hit
never hand the freshly declared node-info to the registry, so the stored
metadata remains `oldNodeA`, not the update the claim asserts. -/
theorem c9_counterexample :
    (findNodeSession
        (handleNode c9Cache ["10000001"] "203.0.113.5:41000" newNodeA)
        "nA").map (·.nodeInfo) = some oldNodeA ∧
    oldNodeA ≠ newNodeA := by decide

/-- C9 amended: when a handshake declares a node whose id is already known,
the handler reuses the stored record unchanged except for attaching the
declared sessions and marking it connected; the stored metadata (version,
client-declared name) is *not* updated from the newly declared node-info —
metadata is recorded only when the record is created on first sight. -/
theorem c9_repeat_keeps_metadata (c : Cache) (pins : List String)
    (addr : String) (node : NodeInfo) (ns : NodeSession)
    (hfound : findNodeSession c node.id = some ns) :
    findNodeSession (handleNode c pins addr node) node.id =
      some ((ns.attachSessionIds pins).connectAddr addr) ∧
    ((ns.attachSessionIds pins).connectAddr addr).nodeInfo = ns.nodeInfo := by
  have hfe : findEntry c.nodeSessions node.id = some ns := hfound
  constructor
  · simp [handleNode, findNodeSession, hfe, findEntry_insertKey_self]
  · simp [NodeSession.attachSessionIds, NodeSession.connectAddr]

theorem c9_repeat_keeps_metadata_witness :
    findNodeSession
        (handleNode c9Cache ["10000001"] "203.0.113.5:41000" newNodeA) "nA" =
      some (((⟨oldNodeA, [], false, ""⟩ : NodeSession).attachSessionIds
        ["10000001"]).connectAddr "203.0.113.5:41000") ∧
    (((⟨oldNodeA, [], false, ""⟩ : NodeSession).attachSessionIds
        ["10000001"]).connectAddr "203.0.113.5:41000").nodeInfo = oldNodeA :=
  c9_repeat_keeps_metadata c9Cache ["10000001"] "203.0.113.5:41000" newNodeA
    ⟨oldNodeA, [], false, ""⟩ (by decide)
